import Mathlib

/-!
Verification of `netdissect/imgviz.py` (gandissect).

Shallow embedding conventions:
* Float values are modelled as exact rationals (`ℚ`); the Python float
  literals `1e-10` and `0.99` are modelled as the exact rationals
  `1 / 10 ^ 10` and `99 / 100`.
* 2-D / 3-D tensors are modelled as total functions from `Nat` indices,
  together with explicit dimensions where a claim needs them.
* External collaborators (the `upsample` module's upsampler factory, the
  `renormalize` module, `torch.nn.functional.interpolate`, and the
  `matplotlib` colormap `cm.hot`) are not part of this repository's
  source; they are passed in as opaque function parameters.
* Fallible operations (indexing a table that may be too short, taking a
  percentile of an empty tensor, feeding a tensor of the wrong rank to
  the 4-D upsampler) return `Option`/`Except` values, with `none`/
  `.error` standing for a raised Python exception.
* Python methods read `self` and could in principle assign attributes;
  every method is therefore modelled as a state transformer returning
  the post-call `ImageVisualizer` together with its result, so that
  frame properties are statable.
-/

namespace ImgViz

/-- Truncation toward zero of a rational, as performed by a C-style
float-to-integer cast (`.byte()` / `astype('uint8')` before the wrap). -/
def ratTrunc (x : ℚ) : Int := if 0 ≤ x then ⌊x⌋ else ⌈x⌉

/-- Conversion of a float value to `uint8`: truncate toward zero, then
wrap modulo 256 (`torch.Tensor.byte` / `numpy astype('uint8')`). -/
def byteOf (x : ℚ) : Nat := ((ratTrunc x) % 256).toNat

/-- Model of `.clamp(0, 255).byte()`: clamp into `[0, 255]`, then
quantize to an 8-bit value. -/
def clampByte (x : ℚ) : Nat := byteOf (min (max x 0) 255)

/-- Model of casting a boolean tensor entry to float (`.float()` in
`masked_image`): `True ↦ 1.0`, `False ↦ 0.0`. -/
def boolF (b : Bool) : ℚ := if b then 1 else 0

/-- The Python float literal `1e-10` used in `heatmap`, modelled exactly. -/
def epsQ : ℚ := 1 / 10 ^ 10

/-- The `yellow` tensor `[255.0, 255.0, 0]` of `masked_image`, indexed by
channel. -/
def yellowQ (c : Nat) : ℚ := ([255, 255, 0].getD c 0 : ℚ)

/-- Unit selector: `None`, an integer channel index, or a length-2 index
pair whose second element is the meaningful channel (the spec's tagged
union for the polymorphic `unit` argument). -/
inductive USel where
  | noneU : USel
  | idx : Nat → USel
  | pair : Nat → Nat → USel

/-- An activation tensor: either a single-channel grid `[H, W]` or a
per-channel grid `[C, H, W]`. -/
inductive ActT where
  | hw : Nat → Nat → (Nat → Nat → ℚ) → ActT
  | chw : Nat → Nat → Nat → (Nat → Nat → Nat → ℚ) → ActT

/-- Row-major flattening of an activation tensor (`activations.view(-1)`),
also the value multiset over which `.min()`, `.max()` and `.sort()` act. -/
def ActT.flatten : ActT → List ℚ
  | .hw h w d => (List.range h).flatMap fun i => (List.range w).map fun j => d i j
  | .chw c h w d =>
      (List.range c).flatMap fun k =>
        (List.range h).flatMap fun i => (List.range w).map fun j => d k i j

/-- Model of `a = activations if unit is None else activations[unit]`
restricted to the combinations that produce a 2-D grid suitable for the
4-D upsampler call sites (`a[None, None, ...]`).  A `[C, H, W]` tensor
with `unit = None` (5-D input downstream), a pair index into `[C, H, W]`
(1-D slice), or an integer index into `[H, W]` (1-D row) all make the
downstream resize primitive raise, which is modelled as `none`. -/
def ActT.select : ActT → USel → Option ((Nat × Nat) × (Nat → Nat → ℚ))
  | .hw h w d, .noneU => some ((h, w), d)
  | .chw _ h w d, .idx u => some ((h, w), d u)
  | _, _ => none

/-- An image tensor of shape `[3, H, W]` (channel, row, column) or
`[1, 3, H, W]` with a leading batch dimension. -/
inductive ImgT where
  | r3 : Nat → Nat → Nat → (Nat → Nat → Nat → ℚ) → ImgT
  | r4 : Nat → Nat → Nat → Nat → (Nat → Nat → Nat → Nat → ℚ) → ImgT

/-- Model of `if len(imagedata.shape) == 4: imagedata = imagedata[0]` in
`scaled_image`: a rank-4 tensor contributes only its first batch
element; a rank-3 tensor is used as-is. -/
def ImgT.strip : ImgT → (Nat → Nat → Nat → ℚ)
  | .r3 _ _ _ d => d
  | .r4 _ _ _ _ d => d 0

/-- A 2-D coarse activation grid. -/
abbrev Grid2 := Nat → Nat → ℚ

/-- A 3-D (channel, row, column) image tensor. -/
abbrev Grid3 := Nat → Nat → Nat → ℚ

/-- An upsampling function produced by the external `upsample.upsampler`
factory; the interpolation `mode` argument is absorbed into the opaque
function. -/
abbrev Upsampler := Grid2 → Grid2

/-- The external `upsample.upsampler` factory itself:
arguments are data shape, target size, optional `input_shape`, optional
`scale_offset` (the dtype/device arguments have no numeric content). -/
abbrev UpFactory :=
  (Nat × Nat) → (Nat × Nat) → Option (Nat × Nat) →
    Option ((ℚ × ℚ) × (ℚ × ℚ)) → Upsampler

/-- An external renormalization function (`renormalize` module). -/
abbrev Renorm := Grid3 → Grid3

/-- The external `torch.nn.functional.interpolate` primitive, given the
target size. -/
abbrev Interp := (Nat × Nat) → Grid3 → Grid3

/-- The external `cm.hot` colormap: normalized value to RGBA in `[0,1]`. -/
abbrev Cmap := ℚ → ℚ × ℚ × ℚ × ℚ

/-- Configuration state of an `ImageVisualizer` (the fields assigned in
`__init__`). -/
structure ImageVisualizer where
  size : Nat × Nat
  input_size : Option (Nat × Nat)
  data_size : Option (Nat × Nat)
  renormalizer : Option Renorm
  scale_offset : Option ((ℚ × ℚ) × (ℚ × ℚ))
  level : Option (List ℚ)
  actrange : Option (List (ℚ × ℚ))
  upsampler : Option Upsampler

/-- Model of the tail of `ImageVisualizer.__init__` (the field
assignments and the conditional construction of the cached upsampler).
The earlier default-derivation lines consume external collaborators
(`input_size_from_source`, `renormalize.renormalizer`,
`upsample.sequence_scale_offset`, `upsample.sequence_data_size`,
`quantiles.quantiles`) and are taken as already applied to the
arguments. -/
def ImageVisualizer.init (f : UpFactory) (size : Nat × Nat)
    (input_size data_size : Option (Nat × Nat))
    (renormalizer : Option Renorm)
    (scale_offset : Option ((ℚ × ℚ) × (ℚ × ℚ)))
    (level : Option (List ℚ)) (actrange : Option (List (ℚ × ℚ))) :
    ImageVisualizer :=
  { size := size, input_size := input_size, data_size := data_size,
    renormalizer := renormalizer, scale_offset := scale_offset,
    level := level, actrange := actrange,
    upsampler :=
      match data_size with
      | some ds => some (f ds size input_size scale_offset)
      | none => none }

/-- Model of `ImageVisualizer.upsampler_for`: return the cached
upsampler when present, else invoke the external factory on the shape of
the tensor at hand.  No attribute is assigned, so the returned state is
the receiver unchanged. -/
def upsampler_for (f : UpFactory) (self : ImageVisualizer)
    (shape : Nat × Nat) : ImageVisualizer × Upsampler :=
  (self,
    match self.upsampler with
    | some u => u
    | none => f shape self.size self.input_size self.scale_offset)

/-- Model of `ImageVisualizer.range_for`: a configured per-unit
`actrange` table takes precedence when `unit` is not `None` (a length-2
unit is resolved to its second element); otherwise the global minimum
and maximum of the activation values are returned.  A missing table row
or an empty tensor is a raised exception, modelled as `none`. -/
def range_for (self : ImageVisualizer) (acts : List ℚ) (u : USel) :
    Option (ℚ × ℚ) :=
  match u, self.actrange with
  | .idx i, some tbl => tbl[i]?
  | .pair _ j, some tbl => tbl[j]?
  | _, _ =>
    match acts.min?, acts.max? with
    | some mn, some mx => some (mn, mx)
    | _, _ => none

/-- Model of `ImageVisualizer.level_for`: a configured per-unit `level`
table takes precedence when `unit` is not `None` (a length-2 unit is
resolved to its second element); otherwise the flattened activation
values are sorted ascending and the entry at index
`int(len(s) * 0.99)` — i.e. `⌊0.99 · N⌋`, modelled exactly as
`99 * N / 100` in `Nat` arithmetic — is returned. -/
def level_for (self : ImageVisualizer) (acts : List ℚ) (u : USel) :
    Option ℚ :=
  match u, self.level with
  | .idx i, some tbl => tbl[i]?
  | .pair _ j, some tbl => tbl[j]?
  | _, _ =>
    let s := acts.mergeSort (fun a b => decide (a ≤ b))
    s[99 * s.length / 100]?

/-- Model of `ImageVisualizer.renormalizer_for`: the configured
renormalizer, else the external default `renormalize.renormalizer('zc',
'rgb')` (passed in as `rdef`). -/
def renormalizer_for (rdef : Renorm) (self : ImageVisualizer) : Renorm :=
  match self.renormalizer with
  | some r => r
  | none => rdef

/-- Model of `ImageVisualizer.scaled_image`: strip the batch dimension
if present, renormalize, and resize to the configured output size with
the external interpolation primitive. -/
def scaled_image (interp : Interp) (rdef : Renorm)
    (self : ImageVisualizer) (img : ImgT) : ImageVisualizer × Grid3 :=
  (self, interp self.size ((renormalizer_for rdef self) img.strip))

/-- Model of `ImageVisualizer.image`: the scaled image, permuted to
`(row, column, channel)` order and cast to bytes. -/
def image (interp : Interp) (rdef : Renorm) (self : ImageVisualizer)
    (img : ImgT) : ImageVisualizer × (Nat → Nat → Nat → Nat) :=
  (self, fun i j c => byteOf ((scaled_image interp rdef self img).2 c i j))

/-- Model of `ImageVisualizer.pytorch_mask`: select the unit, resolve
the threshold level, upsample, and compare with a strict `>`. -/
def pytorch_mask (f : UpFactory) (self : ImageVisualizer) (acts : ActT)
    (u : USel) : ImageVisualizer × Option (Nat → Nat → Bool) :=
  (self,
    match acts.select u with
    | none => none
    | some (shape, a) =>
      match level_for self acts.flatten u with
      | none => none
      | some lvl =>
        let up := (upsampler_for f self shape).2
        some fun i j => decide (up a i j > lvl))

/-- Model of the module-level `border_from_mask`, read pixelwise: the
horizontal difference pass `h = (a[:-1,:] != a[1:,:])` is OR-ed into the
row slices `out[:-1,:]` and `out[1:,:]`, and the vertical pass
`v = (a[:,:-1] != a[:,1:])` into the column slices `out[:,:-1]` and
`out[:,1:]`; every guard below is exactly the index-range condition of
the corresponding slice assignment on an `[H, W]` mask. -/
def border_from_mask (h w : Nat) (a : Nat → Nat → Bool) :
    Nat → Nat → Bool := fun i j =>
  (decide (i + 1 < h) && decide (j < w) && (a i j != a (i + 1) j))
    || (decide (1 ≤ i) && decide (i < h) && decide (j < w)
          && (a (i - 1) j != a i j))
    || (decide (i < h) && decide (j + 1 < w) && (a i j != a i (j + 1)))
    || (decide (i < h) && decide (1 ≤ j) && decide (j < w)
          && (a i (j - 1) != a i j))

/-- Model of `ImageVisualizer.masked_image`: compute the scaled image,
the thresholded mask (which has the configured output shape), its
border, the three pixel classes, and blend
`scaled·inside + yellow·border + 0.5·scaled·outside`, clamped to
`[0, 255]` and quantized; the result is indexed `(channel, row,
column)` before the final permute. -/
def masked_image (interp : Interp) (rdef : Renorm) (f : UpFactory)
    (self : ImageVisualizer) (img : ImgT) (acts : ActT) (u : USel) :
    ImageVisualizer × Option (Nat → Nat → Nat → Nat) :=
  (self,
    let scaled := (scaled_image interp rdef self img).2
    match (pytorch_mask f self acts u).2 with
    | none => none
    | some mask =>
      let border := border_from_mask self.size.1 self.size.2 mask
      let inside := fun i j => mask i j && !border i j
      let outside := fun i j => !mask i j && !border i j
      some fun c i j =>
        clampByte (scaled c i j * boolF (inside i j)
          + yellowQ c * boolF (border i j)
          + (1 / 2 : ℚ) * scaled c i j * boolF (outside i j)))

/-- Quantization step of `heatmap`: `(cm.hot(...) * 255).astype('uint8')`
applied to one RGBA quadruple. -/
def quant4 (q : ℚ × ℚ × ℚ × ℚ) : Nat × Nat × Nat × Nat :=
  (byteOf (q.1 * 255), byteOf (q.2.1 * 255),
   byteOf (q.2.2.1 * 255), byteOf (q.2.2.2 * 255))

/-- Model of `ImageVisualizer.heatmap`: resolve the range, select the
unit, upsample, normalize with the epsilon-guarded denominator
`(a - amin) / (1e-10 + amax - amin)`, apply the external colormap, and
quantize. -/
def heatmap (f : UpFactory) (cmap : Cmap) (self : ImageVisualizer)
    (acts : ActT) (u : USel) :
    ImageVisualizer × Option (Nat → Nat → Nat × Nat × Nat × Nat) :=
  (self,
    match range_for self acts.flatten u with
    | none => none
    | some (amin, amax) =>
      match acts.select u with
      | none => none
      | some (shape, a) =>
        let up := (upsampler_for f self shape).2
        some fun i j =>
          quant4 (cmap ((up a i j - amin) / (epsQ + amax - amin))))

/-- The closed set of node kinds crawled by `find_sizer` (the spec's
tagged-variant tree): the four qualifying torchvision crop/resize
transforms, two non-sizing leaf transforms, `None`, an object with a
nested `transform` attribute, and an object with a nested `transforms`
sequence. -/
inductive TObj where
  | resize : Nat → TObj
  | randomCrop : Nat → TObj
  | randomResizedCrop : Nat → TObj
  | centerCrop : Nat → TObj
  | toTensor : TObj
  | normalizeT : TObj
  | noneObj : TObj
  | withTransform : TObj → TObj
  | withTransforms : List TObj → TObj

mutual
/-- Model of the module-level `find_sizer`.  Branch order follows the
source: the `None` check, the `isinstance` check against the four
crop/resize classes, the nested `transform` attribute, then the nested
`transforms` sequence scanned in `reversed` order.  The `transform`
branch of the source calls `reverse_normalize_from_transform(t)`, a name
defined nowhere in the module and not imported, so reaching that branch
raises `NameError`; the raise is modelled as `Except.error`. -/
def find_sizer : TObj → Except String (Option TObj)
  | .noneObj => .ok none
  | .resize n => .ok (some (.resize n))
  | .randomCrop n => .ok (some (.randomCrop n))
  | .randomResizedCrop n => .ok (some (.randomResizedCrop n))
  | .centerCrop n => .ok (some (.centerCrop n))
  | .toTensor => .ok none
  | .normalizeT => .ok none
  | .withTransform _ =>
      .error "NameError: name reverse_normalize_from_transform is not defined"
  | .withTransforms ts => find_sizer_rev ts

/-- The loop `for t in reversed(ts): ...` of `find_sizer`: later list
elements are examined first, the first non-`None` result is returned,
and a raise from a recursive call propagates. -/
def find_sizer_rev : List TObj → Except String (Option TObj)
  | [] => .ok none
  | t :: rest =>
    match find_sizer_rev rest with
    | .error e => .error e
    | .ok (some s) => .ok (some s)
    | .ok none => find_sizer t
end

/-- A trivial identity upsampler factory, standing in for the external
`upsample.upsampler` in concrete evaluations. -/
def idFactory : UpFactory := fun _ _ _ _ => fun g => g

/-- A trivial identity interpolation primitive for concrete evaluations. -/
def idInterp : Interp := fun _ g => g

/-- A trivial identity renormalizer for concrete evaluations. -/
def idRenorm : Renorm := fun g => g

/-- A grayscale-style concrete colormap for concrete evaluations. -/
def grayMap : Cmap := fun v => (v, v, v, 1)

/-- A concrete visualizer with no precomputed tables and no cached
upsampler (output size 1 × 1). -/
def ivPlain : ImageVisualizer :=
  { size := (1, 1), input_size := none, data_size := none,
    renormalizer := none, scale_offset := none, level := none,
    actrange := none, upsampler := none }

/-- A concrete visualizer with precomputed level and actrange tables and
no cached upsampler. -/
def ivTables : ImageVisualizer :=
  { size := (1, 1), input_size := none, data_size := none,
    renormalizer := none, scale_offset := none, level := some [7],
    actrange := some [(1, 2)], upsampler := none }

/-- A concrete 1 × 1 single-channel activation tensor of value 0. -/
def actZero : ActT := ActT.hw 1 1 (fun _ _ => 0)

/-- A concrete 3 × 1 × 1 image tensor of value 0. -/
def imgZero : ImgT := ImgT.r3 3 1 1 (fun _ _ _ => 0)

/-- A concrete 2 × 2 mask, true only at pixel (0, 0). -/
def wMask : Nat → Nat → Bool := fun i j => decide (i = 0 ∧ j = 0)

/-- A concrete 1 × 1 × 1 per-channel activation tensor of value 9. -/
def actNine : ActT := ActT.chw 1 1 1 (fun _ _ _ => 9)

/-- The mask `pytorch_mask` produces for `actNine` against level 7. -/
def mNine : Nat → Nat → Bool := fun _ _ => decide ((9 : ℚ) > 7)

/-- The `inside` class of `masked_image` at one pixel:
`inside = mask & ~border`. -/
def insideAt (h w : Nat) (m : Nat → Nat → Bool) (i j : Nat) : Bool :=
  m i j && !border_from_mask h w m i j

/-- The `outside` class of `masked_image` at one pixel:
`outside = ~mask & ~border`. -/
def outsideAt (h w : Nat) (m : Nat → Nat → Bool) (i j : Nat) : Bool :=
  !m i j && !border_from_mask h w m i j

instance : Std.Antisymm ((· : ℚ) ≤ ·) := ⟨fun h1 h2 => le_antisymm h1 h2⟩

theorem mem_flatten_hw {h w : Nat} {d : Nat → Nat → ℚ} {x : ℚ} :
    x ∈ (ActT.hw h w d).flatten ↔ ∃ i, i < h ∧ ∃ j, j < w ∧ d i j = x := by
  simp [ActT.flatten]

theorem min?_char {l : List ℚ} {m : ℚ} (hm : l.min? = some m) :
    m ∈ l ∧ ∀ x ∈ l, m ≤ x := by
  have h := (List.min?_eq_some_iff (fun a => le_refl a)
    (fun a b => min_choice a b) (fun a b c => le_min_iff)).mp hm
  exact ⟨h.1, fun x hx => h.2 x hx⟩

theorem max?_char {l : List ℚ} {m : ℚ} (hm : l.max? = some m) :
    m ∈ l ∧ ∀ x ∈ l, x ≤ m := by
  have h := (List.max?_eq_some_iff (fun a => le_refl a)
    (fun a b => max_choice a b) (fun a b c => max_le_iff)).mp hm
  exact ⟨h.1, fun x hx => h.2 x hx⟩

theorem min?_of_all_eq {l : List ℚ} {c : ℚ} (hc : c ∈ l)
    (hall : ∀ x ∈ l, x = c) : l.min? = some c :=
  (List.min?_eq_some_iff (fun a => le_refl a) (fun a b => min_choice a b)
    (fun a b c' => le_min_iff)).mpr
    ⟨hc, fun b hb => le_of_eq (hall b hb).symm⟩

theorem max?_of_all_eq {l : List ℚ} {c : ℚ} (hc : c ∈ l)
    (hall : ∀ x ∈ l, x = c) : l.max? = some c :=
  (List.max?_eq_some_iff (fun a => le_refl a) (fun a b => max_choice a b)
    (fun a b c' => max_le_iff)).mpr
    ⟨hc, fun b hb => le_of_eq (hall b hb)⟩

theorem sorted_mergeSort_le (l : List ℚ) :
    (l.mergeSort (fun a b => decide (a ≤ b))).Sorted (· ≤ ·) := by
  have hp : (l.mergeSort (fun a b => decide (a ≤ b))).Pairwise
      (fun a b : ℚ => decide (a ≤ b) = true) :=
    List.sorted_mergeSort
      (fun a b c h1 h2 => by
        simp only [decide_eq_true_eq] at h1 h2 ⊢; exact le_trans h1 h2)
      (fun a b => by simpa using le_total a b) l
  exact hp.imp (fun h => of_decide_eq_true h)

theorem mergeSort_le_eq {l s : List ℚ} (hperm : s.Perm l)
    (hsort : s.Sorted (· ≤ ·)) :
    l.mergeSort (fun a b => decide (a ≤ b)) = s :=
  List.eq_of_perm_of_sorted (r := (· ≤ ·))
    ((List.mergeSort_perm l _).trans hperm.symm)
    (sorted_mergeSort_le l) hsort

theorem level_for_fallback {iv : ImageVisualizer} {acts s : List ℚ}
    {u : USel} (hu : u = USel.noneU ∨ iv.level = none)
    (hperm : s.Perm acts) (hsort : s.Sorted (· ≤ ·)) :
    level_for iv acts u = s[99 * acts.length / 100]? := by
  have hms : acts.mergeSort (fun a b => decide (a ≤ b)) = s :=
    mergeSort_le_eq hperm hsort
  have hlen : s.length = acts.length := hperm.length_eq
  rcases hu with rfl | hnone
  · rcases h : iv.level with _ | tbl <;> simp [level_for, h, hms, hlen]
  · cases u <;> simp [level_for, hnone, hms, hlen]

theorem range_for_fallback {iv : ImageVisualizer} {acts : List ℚ}
    {u : USel} {mn mx : ℚ} (hu : u = USel.noneU ∨ iv.actrange = none)
    (hmn : acts.min? = some mn) (hmx : acts.max? = some mx) :
    range_for iv acts u = some (mn, mx) := by
  rcases hu with rfl | hnone
  · rcases h : iv.actrange with _ | tbl <;> simp [range_for, h, hmn, hmx]
  · cases u <;> simp [range_for, hnone, hmn, hmx]

theorem flatten_hw_const {h w : Nat} {c : ℚ} :
    (ActT.hw h w (fun _ _ => c)).flatten = List.replicate (h * w) c := by
  have hall : ∀ x ∈ (ActT.hw h w (fun _ _ => c)).flatten, x = c := by
    intro x hx
    rcases mem_flatten_hw.mp hx with ⟨i, _, j, _, hij⟩
    exact hij.symm
  have hlen : (ActT.hw h w (fun _ _ => c)).flatten.length = h * w := by
    simp [ActT.flatten, List.length_flatMap, Function.comp_def,
      List.map_const', List.sum_replicate, smul_eq_mul]
  rw [List.eq_replicate_of_mem hall, hlen]

theorem idx99_lt {n : Nat} (hn : 0 < n) : 99 * n / 100 < n := by
  have h : 99 * n < n * 100 := by omega
  exact Nat.div_lt_of_lt_mul (by omega)

theorem level_for_const {iv : ImageVisualizer} {h w : Nat} {c : ℚ}
    (hh : 0 < h) (hw' : 0 < w) (hnone : iv.level = none) :
    level_for iv (ActT.hw h w (fun _ _ => c)).flatten USel.noneU
      = some c := by
  have hrep := @level_for_fallback iv
    ((ActT.hw h w (fun _ _ => c)).flatten)
    (List.replicate (h * w) c) USel.noneU (Or.inl rfl)
    (by rw [flatten_hw_const]) (by simp [List.Sorted])
  rw [hrep, List.getElem?_replicate]
  have hlen : (ActT.hw h w (fun _ _ => c)).flatten.length = h * w := by
    rw [flatten_hw_const, List.length_replicate]
  rw [hlen, if_pos (idx99_lt (Nat.mul_pos hh hw'))]

/-- C1: for every 2-D boolean mask, `border_from_mask` returns a mask
over the same `[H, W]` index domain that is true at an in-bounds pixel
`(i, j)` iff `mask(i, j)` differs from at least one in-bounds 4-neighbor
`mask(i+1, j)`, `mask(i-1, j)`, `mask(i, j+1)`, `mask(i, j-1)`;
out-of-bounds neighbors are never treated as differing, so edge and
corner pixels consider only their existing neighbors. -/
theorem border_from_mask_spec (h w : Nat) (a : Nat → Nat → Bool)
    (i j : Nat) (hi : i < h) (hj : j < w) :
    border_from_mask h w a i j = true ↔
      ((i + 1 < h ∧ a i j ≠ a (i + 1) j) ∨
       (0 < i ∧ a i j ≠ a (i - 1) j) ∨
       (j + 1 < w ∧ a i j ≠ a i (j + 1)) ∨
       (0 < j ∧ a i j ≠ a i (j - 1))) := by
  simp only [border_from_mask, Bool.or_eq_true, Bool.and_eq_true,
    decide_eq_true_eq, bne_iff_ne, ne_eq]
  constructor
  · rintro (((⟨⟨u, -⟩, v⟩ | ⟨⟨⟨u, -⟩, -⟩, v⟩) | ⟨⟨-, u⟩, v⟩) |
      ⟨⟨⟨-, u⟩, -⟩, v⟩)
    · exact Or.inl ⟨u, v⟩
    · exact Or.inr (Or.inl ⟨u, fun e => v e.symm⟩)
    · exact Or.inr (Or.inr (Or.inl ⟨u, v⟩))
    · exact Or.inr (Or.inr (Or.inr ⟨u, fun e => v e.symm⟩))
  · rintro (⟨u, v⟩ | ⟨u, v⟩ | ⟨u, v⟩ | ⟨u, v⟩)
    · exact Or.inl (Or.inl (Or.inl ⟨⟨u, hj⟩, v⟩))
    · exact Or.inl (Or.inl (Or.inr ⟨⟨⟨u, hi⟩, hj⟩, fun e => v e.symm⟩))
    · exact Or.inl (Or.inr ⟨⟨hi, u⟩, v⟩)
    · exact Or.inr ⟨⟨⟨hi, u⟩, hj⟩, fun e => v e.symm⟩

/-- Witness for C1 at the corner pixel (0, 0) of a concrete 2 × 2 mask. -/
theorem border_from_mask_spec_witness :
    border_from_mask 2 2 wMask 0 0 = true ↔
      ((0 + 1 < 2 ∧ wMask 0 0 ≠ wMask (0 + 1) 0) ∨
       (0 < 0 ∧ wMask 0 0 ≠ wMask (0 - 1) 0) ∨
       (0 + 1 < 2 ∧ wMask 0 0 ≠ wMask 0 (0 + 1)) ∨
       (0 < 0 ∧ wMask 0 0 ≠ wMask 0 (0 - 1))) :=
  border_from_mask_spec 2 2 wMask 0 0 (by decide) (by decide)

/-- C3: when a per-unit `actrange` (resp. `level`) table is configured,
`range_for` (resp. `level_for`) returns exactly the table entry for the
resolved unit — the second element when the selector has the length-2
form — with no recomputation from the activations; when no table is
configured, `range_for` returns the global minimum and maximum of the
activation values and `level_for` returns the entry at index
`⌊0.99 · N⌋` of the ascending-sorted flattened values. -/
theorem range_level_precedence :
    (∀ (iv : ImageVisualizer) (acts : List ℚ) (tbl : List (ℚ × ℚ))
       (i : Nat), iv.actrange = some tbl →
       range_for iv acts (USel.idx i) = tbl[i]?) ∧
    (∀ (iv : ImageVisualizer) (acts : List ℚ) (tbl : List (ℚ × ℚ))
       (i j : Nat), iv.actrange = some tbl →
       range_for iv acts (USel.pair i j) = tbl[j]?) ∧
    (∀ (iv : ImageVisualizer) (acts : List ℚ) (tbl : List ℚ) (i : Nat),
       iv.level = some tbl →
       level_for iv acts (USel.idx i) = tbl[i]?) ∧
    (∀ (iv : ImageVisualizer) (acts : List ℚ) (tbl : List ℚ) (i j : Nat),
       iv.level = some tbl →
       level_for iv acts (USel.pair i j) = tbl[j]?) ∧
    (∀ (iv : ImageVisualizer) (acts : List ℚ) (u : USel) (mn mx : ℚ),
       iv.actrange = none → acts.min? = some mn → acts.max? = some mx →
       range_for iv acts u = some (mn, mx) ∧ mn ∈ acts ∧
         (∀ x ∈ acts, mn ≤ x) ∧ mx ∈ acts ∧ (∀ x ∈ acts, x ≤ mx)) ∧
    (∀ (iv : ImageVisualizer) (acts : List ℚ) (u : USel) (s : List ℚ),
       iv.level = none → s.Perm acts → s.Sorted (· ≤ ·) →
       level_for iv acts u = s[99 * acts.length / 100]?) := by
  refine ⟨?_, ?_, ?_, ?_, ?_, ?_⟩
  · intro iv acts tbl i hr; simp [range_for, hr]
  · intro iv acts tbl i j hr; simp [range_for, hr]
  · intro iv acts tbl i hl; simp [level_for, hl]
  · intro iv acts tbl i j hl; simp [level_for, hl]
  · intro iv acts u mn mx hr hmn hmx
    exact ⟨range_for_fallback (Or.inr hr) hmn hmx, (min?_char hmn).1,
      (min?_char hmn).2, (max?_char hmx).1, (max?_char hmx).2⟩
  · intro iv acts u s hl hperm hsort
    exact level_for_fallback (Or.inr hl) hperm hsort

/-- Witness for C3: table hits for both selector forms, and both
fallbacks on concrete activation lists. -/
theorem range_level_precedence_witness :
    range_for ivTables [9] (USel.idx 0) = some (1, 2) ∧
    range_for ivTables [9] (USel.pair 5 0) = some (1, 2) ∧
    level_for ivTables [9] (USel.idx 0) = some 7 ∧
    level_for ivTables [9] (USel.pair 5 0) = some 7 ∧
    range_for ivPlain [5, 1, 4] USel.noneU = some (1, 5) ∧
    level_for ivPlain [3, 1, 2] USel.noneU = some 3 := by
  refine ⟨?_, ?_, ?_, ?_, ?_, ?_⟩
  · exact (range_level_precedence.1 ivTables [9] [(1, 2)] 0 rfl).trans
      (by decide)
  · exact (range_level_precedence.2.1 ivTables [9] [(1, 2)] 5 0 rfl).trans
      (by decide)
  · exact (range_level_precedence.2.2.1 ivTables [9] [7] 0 rfl).trans
      (by decide)
  · exact (range_level_precedence.2.2.2.1 ivTables [9] [7] 5 0 rfl).trans
      (by decide)
  · exact (range_level_precedence.2.2.2.2.1 ivPlain [5, 1, 4] USel.noneU
      1 5 rfl (by decide) (by decide)).1
  · exact (range_level_precedence.2.2.2.2.2 ivPlain [3, 1, 2] USel.noneU
      [1, 2, 3] rfl (by decide) (by decide)).trans (by decide)

/-- C9: when the unit selector is `None`, `range_for` returns the global
minimum and maximum and `level_for` returns the ascending-sorted value
at index `⌊0.99 · N⌋`, even though per-unit `level` and `actrange`
tables are configured — the tables are consulted only when the unit is
not `None`. -/
theorem tables_ignored_when_unit_none (iv : ImageVisualizer)
    (ltbl : List ℚ) (rtbl : List (ℚ × ℚ)) (acts s : List ℚ) (mn mx : ℚ)
    (hl : iv.level = some ltbl) (hr : iv.actrange = some rtbl)
    (hmn : acts.min? = some mn) (hmx : acts.max? = some mx)
    (hperm : s.Perm acts) (hsort : s.Sorted (· ≤ ·)) :
    range_for iv acts USel.noneU = some (mn, mx) ∧
    (∀ x ∈ acts, mn ≤ x) ∧ (∀ x ∈ acts, x ≤ mx) ∧
    level_for iv acts USel.noneU = s[99 * acts.length / 100]? :=
  ⟨range_for_fallback (Or.inl rfl) hmn hmx, (min?_char hmn).2,
   (max?_char hmx).2, level_for_fallback (Or.inl rfl) hperm hsort⟩

/-- Witness for C9 on a visualizer with both tables configured. -/
theorem tables_ignored_when_unit_none_witness :
    range_for ivTables [4, 6] USel.noneU = some (4, 6) ∧
    level_for ivTables [4, 6] USel.noneU = some 6 := by
  have h := tables_ignored_when_unit_none ivTables [7] [(1, 2)] [4, 6]
    [4, 6] 4 6 rfl rfl (by decide) (by decide) (by decide) (by decide)
  exact ⟨h.1, h.2.2.2.trans (by decide)⟩

/-- C5 (code bug): on a source object whose `transform` attribute holds
`RandomCrop(224)`, the `transform` branch of `find_sizer` calls the
undefined name `reverse_normalize_from_transform` and raises
`NameError` instead of recursing into the attribute as the spec and the
function's own docstring describe. -/
theorem find_sizer_transform_attr_raises :
    find_sizer (TObj.withTransform (TObj.randomCrop 224)) =
      Except.error
        "NameError: name reverse_normalize_from_transform is not defined" := by
  simp [find_sizer]

/-- C6: on a source whose `transforms` sequence is
`[RandomCrop(224), ToTensor, Normalize]`, `find_sizer` returns the
`RandomCrop(224)` object itself; on `[ToTensor, Normalize]`, which holds
no crop/resize transform, it returns the empty result `None` rather
than any default size. -/
theorem find_sizer_examples :
    find_sizer (TObj.withTransforms
        [TObj.randomCrop 224, TObj.toTensor, TObj.normalizeT]) =
      Except.ok (some (TObj.randomCrop 224)) ∧
    find_sizer (TObj.withTransforms [TObj.toTensor, TObj.normalizeT]) =
      Except.ok none := by
  constructor <;> simp [find_sizer, find_sizer_rev]

/-- C7 (amended): every public per-call operation returns the visualizer
state unchanged — in particular all configuration fields are preserved —
and when no upsampler was built at construction, `upsampler_for` invokes
the external factory afresh on each call instead of mutating the
cached-upsampler slot. -/
theorem ops_preserve_state :
    (∀ (f : UpFactory) (cmap : Cmap) (iv : ImageVisualizer) (acts : ActT)
       (u : USel), (heatmap f cmap iv acts u).1 = iv) ∧
    (∀ (interp : Interp) (rdef : Renorm) (iv : ImageVisualizer)
       (img : ImgT), (image interp rdef iv img).1 = iv) ∧
    (∀ (interp : Interp) (rdef : Renorm) (f : UpFactory)
       (iv : ImageVisualizer) (img : ImgT) (acts : ActT) (u : USel),
       (masked_image interp rdef f iv img acts u).1 = iv) ∧
    (∀ (f : UpFactory) (iv : ImageVisualizer) (acts : ActT) (u : USel),
       (pytorch_mask f iv acts u).1 = iv) ∧
    (∀ (interp : Interp) (rdef : Renorm) (iv : ImageVisualizer)
       (img : ImgT), (scaled_image interp rdef iv img).1 = iv) ∧
    (∀ (f : UpFactory) (iv : ImageVisualizer) (sh : Nat × Nat),
       (upsampler_for f iv sh).1 = iv ∧
       (iv.upsampler = none →
         (upsampler_for f iv sh).2
           = f sh iv.size iv.input_size iv.scale_offset)) := by
  refine ⟨fun _ _ _ _ _ => rfl, fun _ _ _ _ => rfl,
    fun _ _ _ _ _ _ _ => rfl, fun _ _ _ _ => rfl, fun _ _ _ _ => rfl,
    fun f iv sh => ⟨rfl, fun hnone => ?_⟩⟩
  simp [upsampler_for, hnone]

/-- Witness for C7's amended claim on a concrete visualizer with no
cached upsampler. -/
theorem ops_preserve_state_witness :
    (upsampler_for idFactory ivPlain (2, 2)).1 = ivPlain ∧
    (upsampler_for idFactory ivPlain (2, 2)).2
      = idFactory (2, 2) ivPlain.size ivPlain.input_size
          ivPlain.scale_offset :=
  ⟨(ops_preserve_state.2.2.2.2.2 idFactory ivPlain (2, 2)).1,
   (ops_preserve_state.2.2.2.2.2 idFactory ivPlain (2, 2)).2 rfl⟩

/-- C7 counterexample: `ivPlain` has no upsampler at construction, yet
after a first use — a `pytorch_mask` call and a `heatmap` call, both of
which invoke `upsampler_for` — the cached-upsampler slot of the
returned state is still `none`: the claimed one-time mutation on first
use never happens (`upsampler_for` contains no attribute assignment). -/
theorem upsampler_not_cached :
    ivPlain.upsampler = none ∧
    ((pytorch_mask idFactory ivPlain actZero USel.noneU).1).upsampler
      = none ∧
    ((heatmap idFactory grayMap ivPlain actZero USel.noneU).1).upsampler
      = none ∧
    ¬∃ u2, ((pytorch_mask idFactory ivPlain actZero
        USel.noneU).1).upsampler = some u2 := by
  refine ⟨rfl, rfl, rfl, ?_⟩
  rintro ⟨u2, h2⟩
  exact Option.noConfusion h2

/-- C8: for a rank-4 image tensor `[1, 3, H, W]`, `scaled_image` — and
`image` and `masked_image`, which call it — strips the batch dimension
and produces the same result as the corresponding rank-3 `[3, H, W]`
tensor passed directly. -/
theorem scaled_image_strips_batch (interp : Interp) (rdef : Renorm)
    (f : UpFactory) (iv : ImageVisualizer) (h w : Nat)
    (d : Nat → Nat → Nat → Nat → ℚ) (acts : ActT) (u : USel) :
    scaled_image interp rdef iv (ImgT.r4 1 3 h w d)
      = scaled_image interp rdef iv (ImgT.r3 3 h w (d 0)) ∧
    image interp rdef iv (ImgT.r4 1 3 h w d)
      = image interp rdef iv (ImgT.r3 3 h w (d 0)) ∧
    masked_image interp rdef f iv (ImgT.r4 1 3 h w d) acts u
      = masked_image interp rdef f iv (ImgT.r3 3 h w (d 0)) acts u :=
  ⟨rfl, rfl, rfl⟩

/-- C2: for every image tensor and activation tensor accepted by
`masked_image` (i.e. on which `pytorch_mask` succeeds), every output
pixel falls in exactly one of the classes inside (`mask & ~border`),
border, outside (`~mask & ~border`) — the three masks are pairwise
disjoint and cover all pixels — and the rendered value is the clamped,
8-bit-quantized scaled-image value for inside pixels, pure yellow
`(255, 255, 0)` for border pixels, and half the scaled-image value,
clamped and quantized, for outside pixels. -/
theorem masked_image_partition (interp : Interp) (rdef : Renorm)
    (f : UpFactory) (iv : ImageVisualizer) (img : ImgT) (acts : ActT)
    (u : USel) (m : Nat → Nat → Bool)
    (hm : (pytorch_mask f iv acts u).2 = some m) :
    ∃ out, (masked_image interp rdef f iv img acts u).2 = some out ∧
      ∀ i j, i < iv.size.1 → j < iv.size.2 →
        ((insideAt iv.size.1 iv.size.2 m i j = true ∨
          border_from_mask iv.size.1 iv.size.2 m i j = true ∨
          outsideAt iv.size.1 iv.size.2 m i j = true) ∧
         ¬(insideAt iv.size.1 iv.size.2 m i j = true ∧
           border_from_mask iv.size.1 iv.size.2 m i j = true) ∧
         ¬(insideAt iv.size.1 iv.size.2 m i j = true ∧
           outsideAt iv.size.1 iv.size.2 m i j = true) ∧
         ¬(border_from_mask iv.size.1 iv.size.2 m i j = true ∧
           outsideAt iv.size.1 iv.size.2 m i j = true)) ∧
        (border_from_mask iv.size.1 iv.size.2 m i j = true →
          out 0 i j = 255 ∧ out 1 i j = 255 ∧ out 2 i j = 0) ∧
        (insideAt iv.size.1 iv.size.2 m i j = true → ∀ c, c < 3 →
          out c i j =
            clampByte ((scaled_image interp rdef iv img).2 c i j)) ∧
        (outsideAt iv.size.1 iv.size.2 m i j = true → ∀ c, c < 3 →
          out c i j = clampByte
            ((1 / 2 : ℚ) * (scaled_image interp rdef iv img).2 c i j)) := by
  simp only [masked_image, hm]
  refine ⟨_, rfl, ?_⟩
  intro i j hi hj
  refine ⟨?_, ?_, ?_, ?_⟩
  · rcases hmij : m i j <;>
      rcases hb : border_from_mask iv.size.1 iv.size.2 m i j <;>
      simp [insideAt, outsideAt, hmij, hb]
  · intro hb
    have h255 : clampByte 255 = 255 := by decide
    have h0 : clampByte 0 = 0 := by decide
    refine ⟨?_, ?_, ?_⟩ <;> simp [hb, boolF, yellowQ, h255, h0]
  · intro hins c _
    simp only [insideAt, Bool.and_eq_true, Bool.not_eq_true'] at hins
    obtain ⟨h1, h2⟩ := hins
    simp [h1, h2, boolF]
  · intro houts c _
    simp only [outsideAt, Bool.and_eq_true, Bool.not_eq_true'] at houts
    obtain ⟨h1, h2⟩ := houts
    simp [h1, h2, boolF]

/-- Witness for C2: a 1 × 1 all-inside configuration; the rendered
pixel equals the clamped scaled-image value on all three channels. -/
theorem masked_image_partition_witness :
    ((masked_image idInterp idRenorm idFactory ivTables imgZero actNine
        (USel.idx 0)).2.map
      (fun out => (out 0 0 0, out 1 0 0, out 2 0 0))) = some (0, 0, 0) := by
  obtain ⟨out, hout, hpix⟩ := masked_image_partition idInterp idRenorm
    idFactory ivTables imgZero actNine (USel.idx 0) mNine rfl
  rw [hout, Option.map_some']
  have h := (hpix 0 0 (by decide) (by decide)).2.2.1 (by decide)
  rw [h 0 (by decide), h 1 (by decide), h 2 (by decide)]
  decide

/-- C4: for a constant-valued activation tensor (minimum equals
maximum) and any upsampler that maps a constant grid to the same
constant, `heatmap` does not divide by zero: the range resolves to
`(c, c)`, the epsilon-guarded denominator equals `1e-10 ≠ 0`, every
normalized value is 0, and the output is the colormap's zero-value
color everywhere. -/
theorem heatmap_constant_input (f : UpFactory) (cmap : Cmap)
    (iv : ImageVisualizer) (h w : Nat) (d : Nat → Nat → ℚ) (c : ℚ)
    (hh : 0 < h) (hw' : 0 < w) (hconst : ∀ i j, d i j = c)
    (hup : ∀ i j, (upsampler_for f iv (h, w)).2 d i j = c) :
    range_for iv (ActT.hw h w d).flatten USel.noneU = some (c, c) ∧
    epsQ + c - c = epsQ ∧ epsQ ≠ 0 ∧
    ∃ out, (heatmap f cmap iv (ActT.hw h w d) USel.noneU).2 = some out ∧
      ∀ i j, out i j = quant4 (cmap 0) := by
  have hmem : c ∈ (ActT.hw h w d).flatten :=
    mem_flatten_hw.mpr ⟨0, hh, 0, hw', hconst 0 0⟩
  have hall : ∀ x ∈ (ActT.hw h w d).flatten, x = c := by
    intro x hx
    rcases mem_flatten_hw.mp hx with ⟨i, _, j, _, hij⟩
    rw [← hij, hconst]
  have hrange := @range_for_fallback iv ((ActT.hw h w d).flatten)
    USel.noneU c c (Or.inl rfl) (min?_of_all_eq hmem hall)
    (max?_of_all_eq hmem hall)
  refine ⟨hrange, by ring, by norm_num [epsQ], ?_⟩
  simp only [heatmap, hrange]
  refine ⟨_, rfl, ?_⟩
  intro i j
  rw [hup i j]
  norm_num

/-- Witness for C4 on a constant 1 × 1 activation tensor of value 0
and the identity upsampler. -/
theorem heatmap_constant_input_witness :
    range_for ivPlain actZero.flatten USel.noneU = some (0, 0) ∧
    epsQ ≠ 0 ∧
    ((heatmap idFactory grayMap ivPlain actZero USel.noneU).2.map
      (fun out => out 0 0)) = some (quant4 (grayMap 0)) := by
  obtain ⟨hr, _, hne, out, hout, hval⟩ := heatmap_constant_input
    idFactory grayMap ivPlain 1 1 (fun _ _ => 0) 0 (by decide)
    (by decide) (fun _ _ => rfl) (fun _ _ => rfl)
  refine ⟨hr, hne, ?_⟩
  rw [show actZero = ActT.hw 1 1 (fun _ _ => (0 : ℚ)) from rfl, hout,
    Option.map_some', hval 0 0]

/-- C10: `pytorch_mask` thresholds with a strict comparison — an output
pixel is in the mask iff its upsampled activation value is strictly
greater than the resolved level, so a value exactly equal to the level
is excluded, and an upsampled grid everywhere equal to the level yields
an all-false mask; moreover for a constant `[H, W]` tensor with no
level table the resolved level is that constant itself. -/
theorem pytorch_mask_strict_threshold (f : UpFactory)
    (iv : ImageVisualizer) (acts : ActT) (u : USel) (sh : Nat × Nat)
    (a : Nat → Nat → ℚ) (lvl : ℚ)
    (hsel : acts.select u = some (sh, a))
    (hlvl : level_for iv acts.flatten u = some lvl) :
    (∃ m, (pytorch_mask f iv acts u).2 = some m ∧
      (∀ i j, (m i j = true ↔ (upsampler_for f iv sh).2 a i j > lvl) ∧
        ((upsampler_for f iv sh).2 a i j = lvl → m i j = false)) ∧
      ((∀ i j, (upsampler_for f iv sh).2 a i j = lvl) →
        ∀ i j, m i j = false)) ∧
    (∀ (iv' : ImageVisualizer) (h w : Nat) (c : ℚ), 0 < h → 0 < w →
      iv'.level = none →
      level_for iv' (ActT.hw h w (fun _ _ => c)).flatten USel.noneU
        = some c) := by
  constructor
  · simp only [pytorch_mask, hsel, hlvl]
    refine ⟨_, rfl, ?_, ?_⟩
    · intro i j
      constructor
      · exact ⟨fun hd => of_decide_eq_true hd, fun hp => decide_eq_true hp⟩
      · intro he
        rw [he]
        simp [lt_irrefl]
    · intro hall i j
      rw [hall i j]
      simp [lt_irrefl]
  · intro iv' h w c hh hw' hnone
    exact level_for_const hh hw' hnone

/-- Witness for C10: a value strictly above a configured table level is
in the mask, and the constant-tensor level fallback resolves to the
constant. -/
theorem pytorch_mask_strict_threshold_witness :
    ((pytorch_mask idFactory ivTables actNine (USel.idx 0)).2.map
      (fun m => m 0 0)) = some true ∧
    level_for ivPlain actZero.flatten USel.noneU = some 0 := by
  obtain ⟨⟨m, hm, hiff, _⟩, hconstlvl⟩ := pytorch_mask_strict_threshold
    idFactory ivTables actNine (USel.idx 0) (1, 1) (fun _ _ => 9) 7
    rfl rfl
  constructor
  · rw [hm, Option.map_some']
    exact congrArg some ((hiff 0 0).1.mpr (show (9 : ℚ) > 7 by norm_num))
  · exact hconstlvl ivPlain 1 1 0 (by decide) (by decide) rfl

end ImgViz
